import Mathlib

/-!
Verification of the rbfx scene-batching sources.

Floats are modelled as rationals: every float operation the claims depend on
is a comparison or an exact affine computation, so the control flow of the
embedded functions matches the source exactly on inputs where no rounding
occurs.  Pointers to engine objects are modelled as plain values or `Option`,
and external calls (such as `Drawable::UpdateBatches`) are recorded as traces
so that frame effects can be stated.
-/

namespace Rbfx

/-- Floats of the source, modelled as rationals. -/
abbrev Scalar := ℚ

/-- Constant `M_LARGE_VALUE` from the engine math definitions (100000000.0f). -/
def M_LARGE_VALUE : Scalar := 100000000

/-- Type `Vector3`, the 3-component float vector of the engine. -/
structure Vector3 where
  x : Scalar
  y : Scalar
  z : Scalar
deriving DecidableEq, Repr

/-- Function `Vector3::DotProduct`. -/
def Vector3.DotProduct (a b : Vector3) : Scalar :=
  a.x * b.x + a.y * b.y + a.z * b.z

/-- Function `Vector3::Abs` (componentwise absolute value). -/
def Vector3.Abs (a : Vector3) : Vector3 :=
  ⟨|a.x|, |a.y|, |a.z|⟩

/-- Function `Vector3::LengthSquared`. -/
def Vector3.LengthSquared (a : Vector3) : Scalar :=
  a.x * a.x + a.y * a.y + a.z * a.z

/-- Scaling a `Vector3` by a float (`operator*`). -/
def Vector3.scale (a : Vector3) (s : Scalar) : Vector3 :=
  ⟨a.x * s, a.y * s, a.z * s⟩

/-- Type `BoundingBox`: axis-aligned box given by min and max corners. -/
structure BoundingBox where
  minV : Vector3
  maxV : Vector3
deriving DecidableEq, Repr

/-- Function `BoundingBox::Center` = (max + min) * 0.5. -/
def BoundingBox.Center (b : BoundingBox) : Vector3 :=
  ⟨(b.maxV.x + b.minV.x) / 2, (b.maxV.y + b.minV.y) / 2, (b.maxV.z + b.minV.z) / 2⟩

/-- Function `BoundingBox::Size` = max - min. -/
def BoundingBox.Size (b : BoundingBox) : Vector3 :=
  ⟨b.maxV.x - b.minV.x, b.maxV.y - b.minV.y, b.maxV.z - b.minV.z⟩

/-- The camera data used by primary drawable processing: the third row
`m20_ m21_ m22_ m23_` of the view matrix (`Camera::GetView`). -/
structure Camera where
  m20 : Scalar
  m21 : Scalar
  m22 : Scalar
  m23 : Scalar
deriving DecidableEq, Repr

/-- The Z row of the view matrix: `Vector3(m20_, m21_, m22_)`. -/
def Camera.viewZ (c : Camera) : Vector3 :=
  ⟨c.m20, c.m21, c.m22⟩

/-- A drawable as seen by primary drawable processing.  The fields are the
results of the accessors the source calls on it: `GetDrawableIndex`,
`GetDrawDistance`, `GetDistance`, `GetDrawableFlags & DRAWABLE_GEOMETRY`,
`GetDrawableFlags & DRAWABLE_LIGHT`, `GetWorldBoundingBox`, and, for lights,
`GetEffectiveColor().Equals(Color::BLACK)` and `GetLightMaskEffective`. -/
structure Drawable where
  drawableIndex : Nat
  drawDistance : Scalar
  distance : Scalar
  isGeometry : Bool
  isLight : Bool
  worldBoundingBox : BoundingBox
  effectiveColorIsBlack : Bool
  lightMaskEffective : Nat
deriving DecidableEq, Repr

/-! Section: worker partitioning (shared by `CustomView::ProcessPrimaryDrawables`
    and `ViewRenderer::Update`) -/

/-- Per-item count `drawablesPerItem = (drawables.size() + numThreads_ - 1) / numThreads_`. -/
def drawablesPerItem (numDrawables numThreads : Nat) : Nat :=
  (numDrawables + numThreads - 1) / numThreads

/-- Range start `fromIndex = workItemIndex * drawablesPerItem`. -/
def fromIndex (workItemIndex numDrawables numThreads : Nat) : Nat :=
  workItemIndex * drawablesPerItem numDrawables numThreads

/-- Range end `toIndex = min((workItemIndex + 1) * drawablesPerItem, drawables.size())`. -/
def toIndex (workItemIndex numDrawables numThreads : Nat) : Nat :=
  min ((workItemIndex + 1) * drawablesPerItem numDrawables numThreads) numDrawables

/-- The sublist of drawables the worker loop `for (i = fromIndex; i < toIndex; ++i)`
visits for a given work item. -/
def workerSlice (drawables : List Drawable) (workItemIndex numThreads : Nat) :
    List Drawable :=
  (drawables.drop (fromIndex workItemIndex drawables.length numThreads)).take
    (toIndex workItemIndex drawables.length numThreads -
      fromIndex workItemIndex drawables.length numThreads)

/-! Section: `ViewRenderer::Update` (per-frame visibility and base update) -/

namespace ViewRenderer

/-- Value `NoTraits` of `ViewRenderer::DrawableTrait`. -/
def NoTraits : Nat := 0

/-- Value `HasBaseBatches = 1 << 0` of `ViewRenderer::DrawableTrait`. -/
def HasBaseBatches : Nat := 1

/-- Type `ViewRenderer::PerWorkerBaseUpdate`. -/
structure PerWorkerBaseUpdate where
  geometries : List Drawable
  lights : List Drawable
  minZ : Scalar
  maxZ : Scalar
deriving DecidableEq, Repr

/-- Function `PerWorkerBaseUpdate::Clear`: empty lists, `minZ_ = M_LARGE_VALUE`,
`maxZ_ = -M_LARGE_VALUE`. -/
def PerWorkerBaseUpdate.Clear : PerWorkerBaseUpdate :=
  ⟨[], [], M_LARGE_VALUE, -M_LARGE_VALUE⟩

/-- The per-viewport state of `ViewRenderer`: the `drawableTraits_` and
`drawableMinMaxZ_` arrays (modelled as functions from drawable index), plus a
trace of the drawables on which the external call `Drawable::UpdateBatches`
was invoked, in invocation order. -/
structure ViewState where
  drawableTraits : Nat → Nat
  drawableMinMaxZ : Nat → Scalar × Scalar
  updatedBatches : List Nat

/-- The state at the start of `ViewRenderer::Update`: traits filled with
`NoTraits`; the `drawableMinMaxZ_` array is resized but not cleared, so it is
passed in unchanged. -/
def ViewState.initial (minMaxZ : Nat → Scalar × Scalar) : ViewState :=
  ⟨fun _ => NoTraits, minMaxZ, []⟩

/-- The body of the worker loop of `ViewRenderer::Update` for one drawable:
update batches, record the trait, skip if too far, then handle the geometry
and light branches. -/
def processDrawable (cam : Camera) (st : ViewState) (result : PerWorkerBaseUpdate)
    (drawable : Drawable) : ViewState × PerWorkerBaseUpdate :=
  let i := drawable.drawableIndex
  let st : ViewState :=
    { st with
      updatedBatches := st.updatedBatches ++ [i]
      drawableTraits := fun j =>
        if j = i then Nat.lor (st.drawableTraits i) HasBaseBatches
        else st.drawableTraits j }
  let maxDistance := drawable.drawDistance
  if maxDistance > 0 ∧ drawable.distance > maxDistance then
    (st, result)
  else if drawable.isGeometry then
    let geomBox := drawable.worldBoundingBox
    let center := geomBox.Center
    let edge := geomBox.Size.scale (1 / 2)
    if edge.LengthSquared ≥ M_LARGE_VALUE * M_LARGE_VALUE then
      ({ st with drawableMinMaxZ := fun j =>
          if j = i then (M_LARGE_VALUE, M_LARGE_VALUE) else st.drawableMinMaxZ j },
       { result with geometries := result.geometries ++ [drawable] })
    else
      let viewZ := cam.viewZ
      let absViewZ := viewZ.Abs
      let viewCenterZ := viewZ.DotProduct center + cam.m23
      let viewEdgeZ := absViewZ.DotProduct edge
      let minZ := viewCenterZ - viewEdgeZ
      let maxZ := viewCenterZ + viewEdgeZ
      ({ st with drawableMinMaxZ := fun j =>
          if j = i then (minZ, maxZ) else st.drawableMinMaxZ j },
       { result with
          geometries := result.geometries ++ [drawable]
          minZ := min result.minZ minZ
          maxZ := max result.maxZ maxZ })
  else if drawable.isLight then
    if ¬drawable.effectiveColorIsBlack ∧ drawable.lightMaskEffective ≠ 0 then
      (st, { result with lights := result.lights ++ [drawable] })
    else (st, result)
  else (st, result)

/-- The worker loop over its index range, as recursion over the slice. -/
def processRange (cam : Camera) : List Drawable → ViewState → PerWorkerBaseUpdate →
    ViewState × PerWorkerBaseUpdate
  | [], st, result => (st, result)
  | d :: rest, st, result =>
    let p := processDrawable cam st result d
    processRange cam rest p.1 p.2

/-- Function `ViewRenderer::Update` after the octree query: partition the collected
drawables into one contiguous range per worker, run every worker (each with a
fresh cleared `PerWorkerBaseUpdate`), and collect the per-worker results.
The workers run concurrently on disjoint per-drawable slots; the model runs
them in work-item order.  Returns the final shared state and the list
`tempBaseUpdate_` of per-worker results. -/
def Update (cam : Camera) (numThreads : Nat) (minMaxZ0 : Nat → Scalar × Scalar)
    (baseDrawables : List Drawable) : ViewState × List PerWorkerBaseUpdate :=
  (List.range numThreads).foldl
    (fun acc workItemIndex =>
      let p := processRange cam (workerSlice baseDrawables workItemIndex numThreads)
        acc.1 PerWorkerBaseUpdate.Clear
      (p.1, acc.2 ++ [p.2]))
    (ViewState.initial minMaxZ0, [])

/-- The merged visible-geometries output: `RenderScenePass` iterates the
geometries of every per-worker result in order. -/
def mergedGeometries (results : List PerWorkerBaseUpdate) : List Drawable :=
  (results.map (·.geometries)).flatten

/-- The merged visible-lights output. -/
def mergedLights (results : List PerWorkerBaseUpdate) : List Drawable :=
  (results.map (·.lights)).flatten

end ViewRenderer

/-! Section: `CustomView::ProcessPrimaryDrawables` (the `CustomViewportDriver` path) -/

/-- Type `DrawableZRange = NumericRange<float>`.  The `NumericRange` header is not
among the sources; it is modelled after its uses there: a min/max pair whose
default-constructed value is the empty (invalid) range, `IsValid` meaning
min ≤ max, and `operator|=` widening to the union — matching the explicit
inline form in `ViewRenderer::Update` (`minZ_ = M_LARGE_VALUE`,
`maxZ_ = -M_LARGE_VALUE`, `min`/`max` merging). -/
structure DrawableZRange where
  minZ : Scalar
  maxZ : Scalar
deriving DecidableEq, Repr

/-- The default-constructed (`{}`) invalid range. -/
def DrawableZRange.empty : DrawableZRange :=
  ⟨M_LARGE_VALUE, -M_LARGE_VALUE⟩

/-- Predicate `NumericRange::IsValid`: the range is nonempty. -/
def DrawableZRange.IsValid (r : DrawableZRange) : Prop :=
  r.minZ ≤ r.maxZ

instance (r : DrawableZRange) : Decidable r.IsValid :=
  inferInstanceAs (Decidable (r.minZ ≤ r.maxZ))

/-- Operation `NumericRange::operator|=`: widen to the union of both ranges. -/
def DrawableZRange.merge (a b : DrawableZRange) : DrawableZRange :=
  ⟨min a.minZ b.minZ, max a.maxZ b.maxZ⟩

/-- Function `DrawableZRangeEvaluator::Evaluate`: returns the default (invalid) range
for "infinite" objects like the skybox, otherwise the view-space Z range of
the world bounding box. -/
def DrawableZRangeEvaluator.Evaluate (cam : Camera) (drawable : Drawable) :
    DrawableZRange :=
  let boundingBox := drawable.worldBoundingBox
  let center := boundingBox.Center
  let edge := boundingBox.Size.scale (1 / 2)
  if edge.LengthSquared ≥ M_LARGE_VALUE * M_LARGE_VALUE then
    DrawableZRange.empty
  else
    let viewZ := cam.viewZ
    let viewCenterZ := viewZ.DotProduct center + cam.m23
    let viewEdgeZ := viewZ.Abs.DotProduct edge
    ⟨viewCenterZ - viewEdgeZ, viewCenterZ + viewEdgeZ⟩

namespace CustomView

/-- Value `DrawableCachePerViewport::DrawableVisible = 1 << 1`. -/
def DrawableVisible : Nat := 2

/-- Type `DrawableCachePerWorker` of `CustomViewportDriver.h`. -/
structure DrawableCachePerWorker where
  geometries : List Drawable
  lights : List Drawable
  zRange : DrawableZRange
deriving DecidableEq, Repr

/-- A freshly reset (`= {}`) worker cache. -/
def DrawableCachePerWorker.reset : DrawableCachePerWorker :=
  ⟨[], [], DrawableZRange.empty⟩

/-- The per-drawable part of `DrawableCachePerViewport` (transient traits and
Z ranges, as functions from drawable index), plus a trace of the drawables on
which `Drawable::UpdateBatches` was invoked by the worker loop of
`CustomView::ProcessPrimaryDrawables`. -/
structure DrawableCachePerViewport where
  drawableTransientTraits : Nat → Nat
  drawableZRanges : Nat → DrawableZRange
  updateBatchesTrace : List Nat

/-- The cache after `DrawableCachePerViewport::Reset`: transient traits filled
with zero; the Z-range array is resized but not cleared, so it is passed in. -/
def DrawableCachePerViewport.reset (zRanges : Nat → DrawableZRange) :
    DrawableCachePerViewport :=
  ⟨fun _ => 0, zRanges, []⟩

/-- Function `ProcessPrimaryDrawable` (the anonymous-namespace helper of
`CustomView.cpp`): mark the drawable visible, skip if too far, then handle
the geometry branch (Z-range evaluation, sentinel for infinite objects) and
the light branch (skip black or zero-mask lights). -/
def ProcessPrimaryDrawable (cam : Camera) (drawable : Drawable)
    (cache : DrawableCachePerViewport) (workerCache : DrawableCachePerWorker) :
    DrawableCachePerViewport × DrawableCachePerWorker :=
  let i := drawable.drawableIndex
  let cache : DrawableCachePerViewport :=
    { cache with drawableTransientTraits := fun j =>
        if j = i then Nat.lor (cache.drawableTransientTraits i) DrawableVisible
        else cache.drawableTransientTraits j }
  let maxDistance := drawable.drawDistance
  if maxDistance > 0 ∧ drawable.distance > maxDistance then
    (cache, workerCache)
  else if drawable.isGeometry then
    let zRange := DrawableZRangeEvaluator.Evaluate cam drawable
    if ¬zRange.IsValid then
      ({ cache with drawableZRanges := fun j =>
          if j = i then ⟨M_LARGE_VALUE, M_LARGE_VALUE⟩ else cache.drawableZRanges j },
       { workerCache with geometries := workerCache.geometries ++ [drawable] })
    else
      ({ cache with drawableZRanges := fun j =>
          if j = i then zRange else cache.drawableZRanges j },
       { workerCache with
          zRange := workerCache.zRange.merge zRange
          geometries := workerCache.geometries ++ [drawable] })
  else if drawable.isLight then
    if ¬drawable.effectiveColorIsBlack ∧ drawable.lightMaskEffective ≠ 0 then
      (cache, { workerCache with lights := workerCache.lights ++ [drawable] })
    else (cache, workerCache)
  else (cache, workerCache)

/-- One iteration of the worker loop of `CustomView::ProcessPrimaryDrawables`:
`drawable->UpdateBatches(frameInfo)` (recorded in the trace) followed by
`ProcessPrimaryDrawable`. -/
def processOne (cam : Camera) (cache : DrawableCachePerViewport)
    (workerCache : DrawableCachePerWorker) (drawable : Drawable) :
    DrawableCachePerViewport × DrawableCachePerWorker :=
  ProcessPrimaryDrawable cam drawable
    { cache with updateBatchesTrace := cache.updateBatchesTrace ++ [drawable.drawableIndex] }
    workerCache

/-- The worker loop over its index range, as recursion over the slice. -/
def processRange (cam : Camera) : List Drawable → DrawableCachePerViewport →
    DrawableCachePerWorker → DrawableCachePerViewport × DrawableCachePerWorker
  | [], cache, workerCache => (cache, workerCache)
  | d :: rest, cache, workerCache =>
    let p := processOne cam cache workerCache d
    processRange cam rest p.1 p.2

/-- Function `CustomView::ProcessPrimaryDrawables`: partition the drawables into one
contiguous range per worker and run every worker with its own fresh
`DrawableCachePerWorker` slot; returns the per-viewport cache and the list
`visibleDrawables_` of per-worker caches. -/
def ProcessPrimaryDrawables (cam : Camera) (numThreads : Nat)
    (zRanges0 : Nat → DrawableZRange) (drawables : List Drawable) :
    DrawableCachePerViewport × List DrawableCachePerWorker :=
  (List.range numThreads).foldl
    (fun acc workItemIndex =>
      let p := processRange cam (workerSlice drawables workItemIndex numThreads)
        acc.1 DrawableCachePerWorker.reset
      (p.1, acc.2 ++ [p.2]))
    (DrawableCachePerViewport.reset zRanges0, [])

/-- The merged visible-geometries output: `CustomView::Render` iterates the
geometries of every worker cache in order. -/
def mergedGeometries (workerCaches : List DrawableCachePerWorker) : List Drawable :=
  (workerCaches.map (·.geometries)).flatten

/-- The merged visible-lights output. -/
def mergedLights (workerCaches : List DrawableCachePerWorker) : List Drawable :=
  (workerCaches.map (·.lights)).flatten

end CustomView

/-! Section: `TestFactory::HasShadow` (shadow-casting decision) -/

/-- Enumeration `LightImportance` values used by `HasShadow`. -/
inductive LightImportance where
  | LI_AUTO
  | LI_IMPORTANT
  | LI_NOT_IMPORTANT
deriving DecidableEq, Repr

/-- Enumeration `LightType` values used by `HasShadow` and `CreatePipelineState`. -/
inductive LightType where
  | LIGHT_DIRECTIONAL
  | LIGHT_SPOT
  | LIGHT_POINT
deriving DecidableEq, Repr

/-- A light as seen by `TestFactory::HasShadow`: the results of the accessors
the function calls (`GetCastShadows`, `GetLightImportance`,
`GetShadowIntensity`, `GetShadowDistance`, `GetDistance`, `GetLightType`). -/
structure Light where
  castShadows : Bool
  lightImportance : LightImportance
  shadowIntensity : Scalar
  shadowDistance : Scalar
  distance : Scalar
  lightType : LightType
deriving DecidableEq, Repr

namespace TestFactory

/-- Function `TestFactory::HasShadow`.  Here `drawShadows` is `Renderer::GetDrawShadows`;
`glES2` tells whether the backend was built for OpenGL ES 2 (the
`GL_ES_VERSION_2_0` conditional excluding point-light shadows). -/
def HasShadow (drawShadows glES2 : Bool) (light : Light) : Bool :=
  let shadowsEnabled := drawShadows && light.castShadows
    && !(light.lightImportance == .LI_NOT_IMPORTANT)
    && decide (light.shadowIntensity < 1)
  if !shadowsEnabled then
    false
  else if light.shadowDistance > 0 ∧ light.distance > light.shadowDistance then
    false
  else if glES2 && (light.lightType == .LIGHT_POINT) then
    false
  else
    true

end TestFactory

/-! Section: pipeline-state cache (`Renderer::GetOrCreatePipelineState`) -/

/-- Type `PipelineStateDesc` of `ViewRenderer.h`.  Shader pointers and the
`GraphicsDefs` enumerations are modelled as plain identifiers; equality of two
descriptions is bitwise equality of all fields, as for the C++ value type. -/
structure PipelineStateDesc where
  vertexElementsHash : Nat
  vertexShader : Nat
  pixelShader : Nat
  primitiveType : Nat
  largeIndices : Bool
  depthWrite : Bool
  depthMode : Nat
  stencilEnabled : Bool
  stencilMode : Nat
  stencilPass : Nat
  stencilFail : Nat
  stencilDepthFail : Nat
  stencilRef : Nat
  compareMask : Nat
  writeMask : Nat
  colorWrite : Bool
  blendMode : Nat
  alphaToCoverage : Bool
  fillMode : Nat
  cullMode : Nat
  constantDepthBias : Scalar
  slopeScaledDepthBias : Scalar
deriving DecidableEq, Repr

/-- The pipeline-state cache held by the renderer: an association of
descriptions to the pipeline objects (handles) created for them, plus the
counter allocating fresh handles. -/
structure PipelineStateCache where
  entries : List (PipelineStateDesc × Nat)
  nextHandle : Nat
deriving DecidableEq, Repr

namespace Renderer

/-- Modelled from the spec: `Renderer::GetOrCreatePipelineState` itself is not
among the sources (only its caller `TestFactory::CreatePipelineState` and the
`PipelineStateDesc` key type are).  Per the spec, the description is the cache
key and the renderer must not re-derive state for identical descriptions:
a request looks the description up and returns the cached pipeline object on
a hit, creating and caching a fresh one only on a miss. -/
def GetOrCreatePipelineState (cache : PipelineStateCache)
    (desc : PipelineStateDesc) : Nat × PipelineStateCache :=
  match cache.entries.find? (fun e => e.1 == desc) with
  | some e => (e.2, cache)
  | none =>
    (cache.nextHandle,
     ⟨(desc, cache.nextHandle) :: cache.entries, cache.nextHandle + 1⟩)

end Renderer

/-! Section: `CustomView::Define` (frame definition), both revisions -/

/-- An `Octree` as used by `Define`: only `GetAllDrawables().size()` is
consumed. -/
structure Octree where
  numAllDrawables : Nat
deriving DecidableEq, Repr

/-- A `Scene` as used by `Define`: `GetComponent<Octree>` may be null. -/
structure Scene where
  octree : Option Octree
deriving DecidableEq, Repr

/-- A `Viewport` as used by `Define`: `GetScene` and `GetCamera` may be null.
The camera is an opaque handle. -/
structure Viewport where
  scene : Option Scene
  camera : Option Nat
deriving DecidableEq, Repr

/-- The member state `Define` records: `scene_`, `camera_`, `octree_`,
`numDrawables_`, `renderTarget_`, `viewport_` (render target and viewport as
nullable handles). -/
structure CustomViewState where
  scene : Option Scene
  camera : Option Nat
  octree : Option Octree
  numDrawables : Nat
  renderTarget : Option Nat
  viewport : Option Viewport
deriving DecidableEq, Repr

/-- The state of a freshly constructed `CustomView`. -/
def CustomViewState.initial : CustomViewState :=
  ⟨none, none, none, 0, none, none⟩

/-- Function `CustomView::Define` of the guarded revision: null-check the camera and
octree and fail the define step (returning false) if either is missing;
otherwise record the frame state and return true. -/
def CustomView.Define (st : CustomViewState) (renderTarget : Option Nat)
    (viewport : Viewport) : Bool × CustomViewState :=
  let scene := viewport.scene
  let camera := if scene.isSome then viewport.camera else none
  let octree := scene.bind (·.octree)
  let st : CustomViewState := { st with scene := scene, camera := camera, octree := octree }
  match camera, octree with
  | some _, some oct =>
    (true, { st with
      numDrawables := oct.numAllDrawables
      renderTarget := renderTarget
      viewport := some viewport })
  | _, _ => (false, st)

/-- Function `CustomView::Define` of the unguarded revision (`part_000`): no null
checks at all.  A missing scene makes `scene_->GetComponent<Octree>()`
dereference null, and a missing octree makes `octree_->GetAllDrawables()`
dereference null; both are modelled as `none` (a crash).  A missing camera is
recorded as null and the function still returns true. -/
def CustomViewOld.Define (st : CustomViewState) (renderTarget : Option Nat)
    (viewport : Viewport) : Option (Bool × CustomViewState) :=
  match viewport.scene with
  | none => none
  | some sc =>
    match sc.octree with
    | none => none
    | some oct =>
      some (true, { st with
        scene := some sc
        camera := viewport.camera
        octree := some oct
        numDrawables := oct.numAllDrawables
        renderTarget := renderTarget
        viewport := some viewport })

/-! Section: `RmlRenderer::SetScissorRegion`, both revisions -/

/-- Type `IntRect` as stored by the scissor setter. -/
structure IntRect where
  left : Int
  top : Int
  right : Int
  bottom : Int
deriving DecidableEq, Repr

/-- Function `RmlRenderer::SetScissorRegion`, first implementation in `part_004`:
stores `right_ = x + width` and `bottom_ = y + height`. -/
def RmlRenderer.SetScissorRegion (x y width height : Int) : IntRect :=
  ⟨x, y, x + width, y + height⟩

/-- Function `RmlRenderer::SetScissorRegion`, second implementation in `part_004`
(the `Rml::Core` revision): stores `right_ = width` and `bottom_ = height`. -/
def RmlRenderer.SetScissorRegionV2 (x y width height : Int) : IntRect :=
  ⟨x, y, width, height⟩

/-! Section: auxiliary predicates and lemmas -/

/-- The "skip if too far" guard passes: the drawable is within its (optional)
individual draw distance. -/
def withinDrawDistance (d : Drawable) : Prop :=
  ¬(d.drawDistance > 0 ∧ d.distance > d.drawDistance)

instance (d : Drawable) : Decidable (withinDrawDistance d) :=
  inferInstanceAs (Decidable (¬_))

namespace ViewRenderer

theorem mem_processDrawable_geometries (cam : Camera) (st : ViewState)
    (w : PerWorkerBaseUpdate) (d x : Drawable) :
    x ∈ (processDrawable cam st w d).2.geometries ↔
      x ∈ w.geometries ∨ (x = d ∧ withinDrawDistance d ∧ d.isGeometry = true) := by
  simp only [processDrawable, withinDrawDistance]
  split_ifs with h1 h2 h3 h4 h5 <;>
    simp_all [List.mem_append]

theorem mem_processDrawable_lights (cam : Camera) (st : ViewState)
    (w : PerWorkerBaseUpdate) (d x : Drawable) :
    x ∈ (processDrawable cam st w d).2.lights ↔
      x ∈ w.lights ∨ (x = d ∧ withinDrawDistance d ∧ d.isGeometry = false ∧
        d.isLight = true ∧ d.effectiveColorIsBlack = false ∧
        d.lightMaskEffective ≠ 0) := by
  simp only [processDrawable, withinDrawDistance]
  split_ifs with h1 h2 h3 h4 h5 <;>
    simp_all [List.mem_append]

theorem mem_processRange_geometries (cam : Camera) (l : List Drawable) :
    ∀ (st : ViewState) (w : PerWorkerBaseUpdate) (x : Drawable),
      x ∈ (processRange cam l st w).2.geometries ↔
        x ∈ w.geometries ∨ (x ∈ l ∧ withinDrawDistance x ∧ x.isGeometry = true) := by
  induction l with
  | nil => intro st w x; simp [processRange]
  | cons d rest ih =>
    intro st w x
    simp only [processRange]
    rw [ih, mem_processDrawable_geometries]
    constructor
    · rintro ((hw | ⟨rfl, hin, hgeo⟩) | ⟨hrest, hin, hgeo⟩)
      · exact Or.inl hw
      · exact Or.inr ⟨List.mem_cons_self _ _, hin, hgeo⟩
      · exact Or.inr ⟨List.mem_cons_of_mem _ hrest, hin, hgeo⟩
    · rintro (hw | ⟨hmem, hin, hgeo⟩)
      · exact Or.inl (Or.inl hw)
      · rcases List.mem_cons.mp hmem with rfl | hrest
        · exact Or.inl (Or.inr ⟨rfl, hin, hgeo⟩)
        · exact Or.inr ⟨hrest, hin, hgeo⟩

theorem mem_processRange_lights (cam : Camera) (l : List Drawable) :
    ∀ (st : ViewState) (w : PerWorkerBaseUpdate) (x : Drawable),
      x ∈ (processRange cam l st w).2.lights ↔
        x ∈ w.lights ∨ (x ∈ l ∧ withinDrawDistance x ∧ x.isGeometry = false ∧
          x.isLight = true ∧ x.effectiveColorIsBlack = false ∧
          x.lightMaskEffective ≠ 0) := by
  induction l with
  | nil => intro st w x; simp [processRange]
  | cons d rest ih =>
    intro st w x
    simp only [processRange]
    rw [ih, mem_processDrawable_lights]
    constructor
    · rintro ((hw | ⟨rfl, hin⟩) | ⟨hrest, hin⟩)
      · exact Or.inl hw
      · exact Or.inr ⟨List.mem_cons_self _ _, hin⟩
      · exact Or.inr ⟨List.mem_cons_of_mem _ hrest, hin⟩
    · rintro (hw | ⟨hmem, hin⟩)
      · exact Or.inl (Or.inl hw)
      · rcases List.mem_cons.mp hmem with rfl | hrest
        · exact Or.inl (Or.inr ⟨rfl, hin⟩)
        · exact Or.inr ⟨hrest, hin⟩

/-- Every per-worker result of `Update` is the result of running some worker
slice from a freshly cleared accumulator (for some intermediate shared
state). -/
theorem mem_update_results (cam : Camera) (T : Nat) (mm : Nat → Scalar × Scalar)
    (ds : List Drawable) (r : PerWorkerBaseUpdate) :
    r ∈ (Update cam T mm ds).2 →
      ∃ k st0, r = (processRange cam (workerSlice ds k T) st0
        PerWorkerBaseUpdate.Clear).2 := by
  unfold Update
  generalize List.range T = ks
  suffices h : ∀ (ks : List Nat) (st : ViewState) (rs : List PerWorkerBaseUpdate),
      r ∈ (ks.foldl
        (fun acc workItemIndex =>
          let p := processRange cam (workerSlice ds workItemIndex T) acc.1
            PerWorkerBaseUpdate.Clear
          (p.1, acc.2 ++ [p.2])) (st, rs)).2 →
      r ∈ rs ∨ ∃ k st0, r = (processRange cam (workerSlice ds k T) st0
        PerWorkerBaseUpdate.Clear).2 by
    intro hmem
    rcases h ks (ViewState.initial mm) [] hmem with hfalse | hgoal
    · simp at hfalse
    · exact hgoal
  intro ks
  induction ks with
  | nil => intro st rs hmem; exact Or.inl hmem
  | cons k ks ih =>
    intro st rs hmem
    simp only [List.foldl_cons] at hmem
    rcases ih _ _ hmem with hin | hgoal
    · rcases List.mem_append.mp hin with hin | hin
      · exact Or.inl hin
      · rcases List.mem_singleton.mp hin with rfl
        exact Or.inr ⟨k, st, rfl⟩
    · exact Or.inr hgoal

/-- Everything in the merged visible-geometries output was collected by some
worker, hence is a within-distance geometry from the drawable list. -/
theorem mem_mergedGeometries_update (cam : Camera) (T : Nat)
    (mm : Nat → Scalar × Scalar) (ds : List Drawable) (x : Drawable) :
    x ∈ mergedGeometries (Update cam T mm ds).2 →
      withinDrawDistance x ∧ x.isGeometry = true := by
  intro hmem
  rcases List.mem_flatten.mp hmem with ⟨gl, hgl, hx⟩
  rcases List.mem_map.mp hgl with ⟨r, hr, rfl⟩
  rcases mem_update_results cam T mm ds r hr with ⟨k, st0, rfl⟩
  rcases (mem_processRange_geometries cam _ st0 PerWorkerBaseUpdate.Clear x).mp hx with
    hfalse | ⟨_, hin, hgeo⟩
  · simp [PerWorkerBaseUpdate.Clear] at hfalse
  · exact ⟨hin, hgeo⟩

/-- Everything in the merged visible-lights output is a within-distance,
non-black, nonzero-mask light. -/
theorem mem_mergedLights_update (cam : Camera) (T : Nat)
    (mm : Nat → Scalar × Scalar) (ds : List Drawable) (x : Drawable) :
    x ∈ mergedLights (Update cam T mm ds).2 →
      withinDrawDistance x ∧ x.isGeometry = false ∧ x.isLight = true ∧
        x.effectiveColorIsBlack = false ∧ x.lightMaskEffective ≠ 0 := by
  intro hmem
  rcases List.mem_flatten.mp hmem with ⟨gl, hgl, hx⟩
  rcases List.mem_map.mp hgl with ⟨r, hr, rfl⟩
  rcases mem_update_results cam T mm ds r hr with ⟨k, st0, rfl⟩
  rcases (mem_processRange_lights cam _ st0 PerWorkerBaseUpdate.Clear x).mp hx with
    hfalse | ⟨_, hin⟩
  · simp [PerWorkerBaseUpdate.Clear] at hfalse
  · exact hin

end ViewRenderer

namespace CustomView

theorem mem_ProcessPrimaryDrawable_geometries (cam : Camera) (d : Drawable)
    (cache : DrawableCachePerViewport) (wc : DrawableCachePerWorker) (x : Drawable) :
    x ∈ (ProcessPrimaryDrawable cam d cache wc).2.geometries ↔
      x ∈ wc.geometries ∨ (x = d ∧ withinDrawDistance d ∧ d.isGeometry = true) := by
  simp only [ProcessPrimaryDrawable, withinDrawDistance]
  split_ifs with h1 h2 h3 h4 h5 <;>
    simp_all [List.mem_append]

theorem mem_ProcessPrimaryDrawable_lights (cam : Camera) (d : Drawable)
    (cache : DrawableCachePerViewport) (wc : DrawableCachePerWorker) (x : Drawable) :
    x ∈ (ProcessPrimaryDrawable cam d cache wc).2.lights ↔
      x ∈ wc.lights ∨ (x = d ∧ withinDrawDistance d ∧ d.isGeometry = false ∧
        d.isLight = true ∧ d.effectiveColorIsBlack = false ∧
        d.lightMaskEffective ≠ 0) := by
  simp only [ProcessPrimaryDrawable, withinDrawDistance]
  split_ifs with h1 h2 h3 h4 h5 <;>
    simp_all [List.mem_append]

theorem mem_processOne_geometries (cam : Camera) (cache : DrawableCachePerViewport)
    (wc : DrawableCachePerWorker) (d x : Drawable) :
    x ∈ (processOne cam cache wc d).2.geometries ↔
      x ∈ wc.geometries ∨ (x = d ∧ withinDrawDistance d ∧ d.isGeometry = true) :=
  mem_ProcessPrimaryDrawable_geometries cam d _ wc x

theorem mem_processOne_lights (cam : Camera) (cache : DrawableCachePerViewport)
    (wc : DrawableCachePerWorker) (d x : Drawable) :
    x ∈ (processOne cam cache wc d).2.lights ↔
      x ∈ wc.lights ∨ (x = d ∧ withinDrawDistance d ∧ d.isGeometry = false ∧
        d.isLight = true ∧ d.effectiveColorIsBlack = false ∧
        d.lightMaskEffective ≠ 0) :=
  mem_ProcessPrimaryDrawable_lights cam d _ wc x

theorem mem_workerRange_geometries (cam : Camera) (l : List Drawable) :
    ∀ (cache : DrawableCachePerViewport) (wc : DrawableCachePerWorker) (x : Drawable),
      x ∈ (processRange cam l cache wc).2.geometries ↔
        x ∈ wc.geometries ∨ (x ∈ l ∧ withinDrawDistance x ∧ x.isGeometry = true) := by
  induction l with
  | nil => intro cache wc x; simp [processRange]
  | cons d rest ih =>
    intro cache wc x
    simp only [processRange]
    rw [ih, mem_processOne_geometries]
    constructor
    · rintro ((hw | ⟨rfl, hin, hgeo⟩) | ⟨hrest, hin, hgeo⟩)
      · exact Or.inl hw
      · exact Or.inr ⟨List.mem_cons_self _ _, hin, hgeo⟩
      · exact Or.inr ⟨List.mem_cons_of_mem _ hrest, hin, hgeo⟩
    · rintro (hw | ⟨hmem, hin, hgeo⟩)
      · exact Or.inl (Or.inl hw)
      · rcases List.mem_cons.mp hmem with rfl | hrest
        · exact Or.inl (Or.inr ⟨rfl, hin, hgeo⟩)
        · exact Or.inr ⟨hrest, hin, hgeo⟩

theorem mem_workerRange_lights (cam : Camera) (l : List Drawable) :
    ∀ (cache : DrawableCachePerViewport) (wc : DrawableCachePerWorker) (x : Drawable),
      x ∈ (processRange cam l cache wc).2.lights ↔
        x ∈ wc.lights ∨ (x ∈ l ∧ withinDrawDistance x ∧ x.isGeometry = false ∧
          x.isLight = true ∧ x.effectiveColorIsBlack = false ∧
          x.lightMaskEffective ≠ 0) := by
  induction l with
  | nil => intro cache wc x; simp [processRange]
  | cons d rest ih =>
    intro cache wc x
    simp only [processRange]
    rw [ih, mem_processOne_lights]
    constructor
    · rintro ((hw | ⟨rfl, hin⟩) | ⟨hrest, hin⟩)
      · exact Or.inl hw
      · exact Or.inr ⟨List.mem_cons_self _ _, hin⟩
      · exact Or.inr ⟨List.mem_cons_of_mem _ hrest, hin⟩
    · rintro (hw | ⟨hmem, hin⟩)
      · exact Or.inl (Or.inl hw)
      · rcases List.mem_cons.mp hmem with rfl | hrest
        · exact Or.inl (Or.inr ⟨rfl, hin⟩)
        · exact Or.inr ⟨hrest, hin⟩

/-- Every per-worker cache produced by `ProcessPrimaryDrawables` is the result
of running some worker slice from a freshly reset worker cache. -/
theorem mem_processPrimaryDrawables_results (cam : Camera) (T : Nat)
    (zr : Nat → DrawableZRange) (ds : List Drawable) (r : DrawableCachePerWorker) :
    r ∈ (ProcessPrimaryDrawables cam T zr ds).2 →
      ∃ k cache0, r = (processRange cam (workerSlice ds k T) cache0
        DrawableCachePerWorker.reset).2 := by
  unfold ProcessPrimaryDrawables
  generalize List.range T = ks
  suffices h : ∀ (ks : List Nat) (cache : DrawableCachePerViewport)
      (rs : List DrawableCachePerWorker),
      r ∈ (ks.foldl
        (fun acc workItemIndex =>
          let p := processRange cam (workerSlice ds workItemIndex T) acc.1
            DrawableCachePerWorker.reset
          (p.1, acc.2 ++ [p.2])) (cache, rs)).2 →
      r ∈ rs ∨ ∃ k cache0, r = (processRange cam (workerSlice ds k T) cache0
        DrawableCachePerWorker.reset).2 by
    intro hmem
    rcases h ks (DrawableCachePerViewport.reset zr) [] hmem with hfalse | hgoal
    · simp at hfalse
    · exact hgoal
  intro ks
  induction ks with
  | nil => intro cache rs hmem; exact Or.inl hmem
  | cons k ks ih =>
    intro cache rs hmem
    simp only [List.foldl_cons] at hmem
    rcases ih _ _ hmem with hin | hgoal
    · rcases List.mem_append.mp hin with hin | hin
      · exact Or.inl hin
      · rcases List.mem_singleton.mp hin with rfl
        exact Or.inr ⟨k, cache, rfl⟩
    · exact Or.inr hgoal

/-- Everything in the merged visible-geometries output of
`ProcessPrimaryDrawables` is a within-distance geometry. -/
theorem mem_mergedGeometries_process (cam : Camera) (T : Nat)
    (zr : Nat → DrawableZRange) (ds : List Drawable) (x : Drawable) :
    x ∈ mergedGeometries (ProcessPrimaryDrawables cam T zr ds).2 →
      withinDrawDistance x ∧ x.isGeometry = true := by
  intro hmem
  rcases List.mem_flatten.mp hmem with ⟨gl, hgl, hx⟩
  rcases List.mem_map.mp hgl with ⟨r, hr, rfl⟩
  rcases mem_processPrimaryDrawables_results cam T zr ds r hr with ⟨k, cache0, rfl⟩
  rcases (mem_workerRange_geometries cam _ cache0 DrawableCachePerWorker.reset x).mp hx with
    hfalse | ⟨_, hin, hgeo⟩
  · simp [DrawableCachePerWorker.reset] at hfalse
  · exact ⟨hin, hgeo⟩

/-- Everything in the merged visible-lights output of
`ProcessPrimaryDrawables` is a within-distance, non-black, nonzero-mask
light. -/
theorem mem_mergedLights_process (cam : Camera) (T : Nat)
    (zr : Nat → DrawableZRange) (ds : List Drawable) (x : Drawable) :
    x ∈ mergedLights (ProcessPrimaryDrawables cam T zr ds).2 →
      withinDrawDistance x ∧ x.isGeometry = false ∧ x.isLight = true ∧
        x.effectiveColorIsBlack = false ∧ x.lightMaskEffective ≠ 0 := by
  intro hmem
  rcases List.mem_flatten.mp hmem with ⟨gl, hgl, hx⟩
  rcases List.mem_map.mp hgl with ⟨r, hr, rfl⟩
  rcases mem_processPrimaryDrawables_results cam T zr ds r hr with ⟨k, cache0, rfl⟩
  rcases (mem_workerRange_lights cam _ cache0 DrawableCachePerWorker.reset x).mp hx with
    hfalse | ⟨_, hin⟩
  · simp [DrawableCachePerWorker.reset] at hfalse
  · exact hin

end CustomView

/-! Section: concrete frame inputs used to exercise the theorems -/

/-- A camera whose view-matrix Z row is zero. -/
def cam0 : Camera := ⟨0, 0, 0, 0⟩

/-- A geometry drawable beyond its draw distance (drawDistance 1, distance 2). -/
def dFar : Drawable := ⟨0, 1, 2, true, false, ⟨⟨0, 0, 0⟩, ⟨0, 0, 0⟩⟩, false, 1⟩

/-- A skybox-sized geometry drawable: half-diagonal (1e8, 1e8, 1e8), squared
length 3e16 ≥ M_LARGE_VALUE², and no draw-distance limit. -/
def dSky : Drawable :=
  ⟨1, 0, 0, true, false,
    ⟨⟨-100000000, -100000000, -100000000⟩, ⟨100000000, 100000000, 100000000⟩⟩,
    false, 0⟩

/-- A light drawable whose effective color equals black. -/
def dBlackLight : Drawable := ⟨2, 0, 0, false, true, ⟨⟨0, 0, 0⟩, ⟨0, 0, 0⟩⟩, true, 5⟩

/-! Section: claim theorems -/

/-- Claim C1: for every drawable whose drawDistance is greater than 0 and
whose distance from the camera exceeds its drawDistance, primary drawable
processing never places the drawable in the merged visible-geometries output
nor in the merged visible-lights output — in both the
`ViewRenderer::Update` pipeline and the `CustomView::ProcessPrimaryDrawables`
pipeline. -/
theorem tooFarDrawableNotVisible (cam : Camera) (numThreads : Nat)
    (mm : Nat → Scalar × Scalar) (zr : Nat → DrawableZRange)
    (ds : List Drawable) (d : Drawable)
    (hpos : d.drawDistance > 0) (hfar : d.distance > d.drawDistance) :
    d ∉ ViewRenderer.mergedGeometries (ViewRenderer.Update cam numThreads mm ds).2 ∧
    d ∉ ViewRenderer.mergedLights (ViewRenderer.Update cam numThreads mm ds).2 ∧
    d ∉ CustomView.mergedGeometries
      (CustomView.ProcessPrimaryDrawables cam numThreads zr ds).2 ∧
    d ∉ CustomView.mergedLights
      (CustomView.ProcessPrimaryDrawables cam numThreads zr ds).2 := by
  refine ⟨fun h => ?_, fun h => ?_, fun h => ?_, fun h => ?_⟩
  · exact (ViewRenderer.mem_mergedGeometries_update cam numThreads mm ds d h).1
      ⟨hpos, hfar⟩
  · exact (ViewRenderer.mem_mergedLights_update cam numThreads mm ds d h).1
      ⟨hpos, hfar⟩
  · exact (CustomView.mem_mergedGeometries_process cam numThreads zr ds d h).1
      ⟨hpos, hfar⟩
  · exact (CustomView.mem_mergedLights_process cam numThreads zr ds d h).1
      ⟨hpos, hfar⟩

/-- Witness for C1 at a concrete frame: a drawable with drawDistance 1 at
distance 2 is excluded from every merged output. -/
theorem tooFarDrawableNotVisible_witness :
    dFar.drawDistance > 0 ∧ dFar.distance > dFar.drawDistance ∧
    (dFar ∉ ViewRenderer.mergedGeometries
        (ViewRenderer.Update cam0 2 (fun _ => (0, 0)) [dFar]).2 ∧
     dFar ∉ ViewRenderer.mergedLights
        (ViewRenderer.Update cam0 2 (fun _ => (0, 0)) [dFar]).2 ∧
     dFar ∉ CustomView.mergedGeometries
        (CustomView.ProcessPrimaryDrawables cam0 2 (fun _ => DrawableZRange.empty) [dFar]).2 ∧
     dFar ∉ CustomView.mergedLights
        (CustomView.ProcessPrimaryDrawables cam0 2 (fun _ => DrawableZRange.empty) [dFar]).2) :=
  ⟨by decide, by decide,
    tooFarDrawableNotVisible cam0 2 (fun _ => (0, 0)) (fun _ => DrawableZRange.empty)
      [dFar] dFar (by decide) (by decide)⟩

/-- Counterexample to claim C2 as stated: at a concrete frame containing one
drawable beyond its draw distance, `UpdateBatches` is still invoked on it and
its per-frame trait is changed (while it is indeed excluded from the merged
outputs), so processing does not "skip it entirely". -/
theorem tooFarDrawableStillUpdated_counterexample :
    (ViewRenderer.Update cam0 1 (fun _ => (0, 0)) [dFar]).1.updatedBatches = [0] ∧
    (ViewRenderer.Update cam0 1 (fun _ => (0, 0)) [dFar]).1.drawableTraits 0 ≠
      ViewRenderer.NoTraits ∧
    ViewRenderer.mergedGeometries (ViewRenderer.Update cam0 1 (fun _ => (0, 0)) [dFar]).2 = [] ∧
    ViewRenderer.mergedLights (ViewRenderer.Update cam0 1 (fun _ => (0, 0)) [dFar]).2 = [] ∧
    (CustomView.ProcessPrimaryDrawables cam0 1 (fun _ => DrawableZRange.empty)
        [dFar]).1.updateBatchesTrace = [0] ∧
    (CustomView.ProcessPrimaryDrawables cam0 1 (fun _ => DrawableZRange.empty)
        [dFar]).1.drawableTransientTraits 0 ≠ 0 := by
  decide

/-- Claim C2 as amended: a drawable beyond its positive draw distance is
skipped from the per-worker outputs (geometries, lights, Z aggregates) and
its per-drawable Z-range slot is left untouched, but `UpdateBatches` is still
invoked on it and its per-frame trait bit is still set — in both the
`ViewRenderer` and the `CustomView` processing paths, which perform the batch
update and trait write before the distance check. -/
theorem tooFarDrawableSkippedButUpdated (cam : Camera)
    (st : ViewRenderer.ViewState) (w : ViewRenderer.PerWorkerBaseUpdate)
    (cache : CustomView.DrawableCachePerViewport)
    (wc : CustomView.DrawableCachePerWorker) (d : Drawable)
    (hpos : d.drawDistance > 0) (hfar : d.distance > d.drawDistance) :
    ((ViewRenderer.processDrawable cam st w d).1.updatedBatches
        = st.updatedBatches ++ [d.drawableIndex]) ∧
    ((ViewRenderer.processDrawable cam st w d).1.drawableTraits d.drawableIndex
        = Nat.lor (st.drawableTraits d.drawableIndex) ViewRenderer.HasBaseBatches) ∧
    ((ViewRenderer.processDrawable cam st w d).2 = w) ∧
    ((ViewRenderer.processDrawable cam st w d).1.drawableMinMaxZ
        = st.drawableMinMaxZ) ∧
    ((CustomView.processOne cam cache wc d).1.updateBatchesTrace
        = cache.updateBatchesTrace ++ [d.drawableIndex]) ∧
    ((CustomView.processOne cam cache wc d).1.drawableTransientTraits d.drawableIndex
        = Nat.lor (cache.drawableTransientTraits d.drawableIndex)
            CustomView.DrawableVisible) ∧
    ((CustomView.processOne cam cache wc d).2 = wc) ∧
    ((CustomView.processOne cam cache wc d).1.drawableZRanges
        = cache.drawableZRanges) := by
  have hcond : d.drawDistance > 0 ∧ d.distance > d.drawDistance := ⟨hpos, hfar⟩
  simp only [ViewRenderer.processDrawable, CustomView.processOne,
    CustomView.ProcessPrimaryDrawable, if_pos hcond]
  simp

/-- Witness for the amended C2 at a concrete frame. -/
theorem tooFarDrawableSkippedButUpdated_witness :
    dFar.drawDistance > 0 ∧ dFar.distance > dFar.drawDistance ∧
    ((ViewRenderer.processDrawable cam0 (ViewRenderer.ViewState.initial (fun _ => (0, 0)))
        ViewRenderer.PerWorkerBaseUpdate.Clear dFar).1.updatedBatches
      = (ViewRenderer.ViewState.initial (fun _ => (0, 0))).updatedBatches ++
          [dFar.drawableIndex]) :=
  ⟨by decide, by decide,
    (tooFarDrawableSkippedButUpdated cam0
      (ViewRenderer.ViewState.initial (fun _ => (0, 0)))
      ViewRenderer.PerWorkerBaseUpdate.Clear
      (CustomView.DrawableCachePerViewport.reset (fun _ => DrawableZRange.empty))
      CustomView.DrawableCachePerWorker.reset dFar (by decide) (by decide)).1⟩

/-- Claim C3: a visible geometry drawable whose bounding-box half-diagonal
squared is at least M_LARGE_VALUE² gets the sentinel Z range
{M_LARGE_VALUE, M_LARGE_VALUE} stored in its per-drawable slot, is still
appended to the visible-geometries list, and leaves the per-worker aggregate
scene Z range exactly unchanged — in both processing paths (in the
`CustomView` path, `DrawableZRangeEvaluator::Evaluate` returns the invalid
default range for such a drawable). -/
theorem infiniteGeometrySentinelZRange (cam : Camera)
    (st : ViewRenderer.ViewState) (w : ViewRenderer.PerWorkerBaseUpdate)
    (cache : CustomView.DrawableCachePerViewport)
    (wc : CustomView.DrawableCachePerWorker) (d : Drawable)
    (hnear : withinDrawDistance d) (hgeo : d.isGeometry = true)
    (hbig : (d.worldBoundingBox.Size.scale (1 / 2)).LengthSquared ≥
      M_LARGE_VALUE * M_LARGE_VALUE) :
    ((ViewRenderer.processDrawable cam st w d).1.drawableMinMaxZ d.drawableIndex
        = (M_LARGE_VALUE, M_LARGE_VALUE)) ∧
    ((ViewRenderer.processDrawable cam st w d).2.geometries = w.geometries ++ [d]) ∧
    ((ViewRenderer.processDrawable cam st w d).2.minZ = w.minZ) ∧
    ((ViewRenderer.processDrawable cam st w d).2.maxZ = w.maxZ) ∧
    (DrawableZRangeEvaluator.Evaluate cam d = DrawableZRange.empty) ∧
    ((CustomView.ProcessPrimaryDrawable cam d cache wc).1.drawableZRanges
        d.drawableIndex = ⟨M_LARGE_VALUE, M_LARGE_VALUE⟩) ∧
    ((CustomView.ProcessPrimaryDrawable cam d cache wc).2.geometries
        = wc.geometries ++ [d]) ∧
    ((CustomView.ProcessPrimaryDrawable cam d cache wc).2.zRange = wc.zRange) := by
  have heval : DrawableZRangeEvaluator.Evaluate cam d = DrawableZRange.empty := by
    simp only [DrawableZRangeEvaluator.Evaluate]
    rw [if_pos hbig]
  have hinvalid : ¬(DrawableZRange.empty).IsValid := by
    simp only [DrawableZRange.IsValid, DrawableZRange.empty, M_LARGE_VALUE]
    norm_num
  simp only [ViewRenderer.processDrawable, CustomView.ProcessPrimaryDrawable,
    if_neg hnear, if_pos hgeo, if_pos hbig, heval, if_pos hinvalid]
  simp

/-- Witness for C3 at a concrete skybox-sized drawable. -/
theorem infiniteGeometrySentinelZRange_witness :
    withinDrawDistance dSky ∧ dSky.isGeometry = true ∧
    (dSky.worldBoundingBox.Size.scale (1 / 2)).LengthSquared ≥
      M_LARGE_VALUE * M_LARGE_VALUE ∧
    ((ViewRenderer.processDrawable cam0 (ViewRenderer.ViewState.initial (fun _ => (0, 0)))
        ViewRenderer.PerWorkerBaseUpdate.Clear dSky).2.minZ
      = ViewRenderer.PerWorkerBaseUpdate.Clear.minZ) :=
  ⟨by decide, by decide,
    by norm_num [dSky, BoundingBox.Size, Vector3.scale, Vector3.LengthSquared,
      M_LARGE_VALUE],
    (infiniteGeometrySentinelZRange cam0
      (ViewRenderer.ViewState.initial (fun _ => (0, 0)))
      ViewRenderer.PerWorkerBaseUpdate.Clear
      (CustomView.DrawableCachePerViewport.reset (fun _ => DrawableZRange.empty))
      CustomView.DrawableCachePerWorker.reset dSky
      (by decide) (by decide)
      (by norm_num [dSky, BoundingBox.Size, Vector3.scale, Vector3.LengthSquared,
        M_LARGE_VALUE])).2.2.1⟩

/-- Claim C4: a visible (within draw distance) light drawable is appended to
the per-worker visible-lights list exactly when its effective color is not
black and its effective light mask is nonzero; and any light with black
effective color or zero effective light mask never appears in the merged
visible-lights output of either pipeline. -/
theorem lightVisibleIffColorAndMask (cam : Camera)
    (st : ViewRenderer.ViewState) (w : ViewRenderer.PerWorkerBaseUpdate)
    (cache : CustomView.DrawableCachePerViewport)
    (wc : CustomView.DrawableCachePerWorker)
    (numThreads : Nat) (mm : Nat → Scalar × Scalar) (zr : Nat → DrawableZRange)
    (ds : List Drawable) (d : Drawable)
    (hlight : d.isLight = true) (hgeom : d.isGeometry = false) :
    (withinDrawDistance d →
      ((ViewRenderer.processDrawable cam st w d).2.lights = w.lights ++
        (if d.effectiveColorIsBlack = false ∧ d.lightMaskEffective ≠ 0
         then [d] else [])) ∧
      ((CustomView.ProcessPrimaryDrawable cam d cache wc).2.lights = wc.lights ++
        (if d.effectiveColorIsBlack = false ∧ d.lightMaskEffective ≠ 0
         then [d] else []))) ∧
    ((d.effectiveColorIsBlack = true ∨ d.lightMaskEffective = 0) →
      d ∉ ViewRenderer.mergedLights (ViewRenderer.Update cam numThreads mm ds).2 ∧
      d ∉ CustomView.mergedLights
        (CustomView.ProcessPrimaryDrawables cam numThreads zr ds).2) := by
  constructor
  · intro hnear
    simp only [ViewRenderer.processDrawable, CustomView.ProcessPrimaryDrawable,
      if_neg hnear, hgeom, hlight]
    split_ifs <;> simp_all
  · intro hbad
    constructor
    · intro h
      rcases ViewRenderer.mem_mergedLights_update cam numThreads mm ds d h with
        ⟨_, _, _, hcol, hmask⟩
      rcases hbad with hb | hb <;> simp_all
    · intro h
      rcases CustomView.mem_mergedLights_process cam numThreads zr ds d h with
        ⟨_, _, _, hcol, hmask⟩
      rcases hbad with hb | hb <;> simp_all

/-- Witness for C4 at a concrete black light: it is not appended and is
excluded from the merged outputs. -/
theorem lightVisibleIffColorAndMask_witness :
    dBlackLight.isLight = true ∧ dBlackLight.isGeometry = false ∧
    withinDrawDistance dBlackLight ∧ dBlackLight.effectiveColorIsBlack = true ∧
    (dBlackLight ∉ ViewRenderer.mergedLights
        (ViewRenderer.Update cam0 1 (fun _ => (0, 0)) [dBlackLight]).2 ∧
     dBlackLight ∉ CustomView.mergedLights
        (CustomView.ProcessPrimaryDrawables cam0 1 (fun _ => DrawableZRange.empty)
          [dBlackLight]).2) :=
  ⟨by decide, by decide, by decide, by decide,
    (lightVisibleIffColorAndMask cam0
      (ViewRenderer.ViewState.initial (fun _ => (0, 0)))
      ViewRenderer.PerWorkerBaseUpdate.Clear
      (CustomView.DrawableCachePerViewport.reset (fun _ => DrawableZRange.empty))
      CustomView.DrawableCachePerWorker.reset 1 (fun _ => (0, 0))
      (fun _ => DrawableZRange.empty) [dBlackLight] dBlackLight
      (by decide) (by decide)).2 (Or.inl (by decide))⟩

/-- Claim C5: the static worker partitioning (perItem = ceil(N/W),
fromIndex = k*perItem, toIndex = min((k+1)*perItem, N)) covers every index
in [0, N) exactly once: each index lies in the range of exactly one worker
k < W. -/
theorem workerPartitionExactCover (n w i : Nat) (hw : 1 ≤ w) (hi : i < n) :
    ∃! k, k < w ∧ fromIndex k n w ≤ i ∧ i < toIndex k n w := by
  simp only [fromIndex, toIndex]
  set p := drawablesPerItem n w with hp
  have hwp : n ≤ w * p := by
    have h1 := Nat.div_add_mod (n + w - 1) w
    have h2 : (n + w - 1) % w < w := Nat.mod_lt _ (by omega)
    rw [hp, drawablesPerItem]
    omega
  have hppos : 0 < p := by
    rcases Nat.eq_zero_or_pos p with h0 | h
    · rw [h0, Nat.mul_zero] at hwp; omega
    · exact h
  refine ⟨i / p, ⟨?_, ?_, ?_⟩, ?_⟩
  · exact (Nat.div_lt_iff_lt_mul hppos).mpr (Nat.lt_of_lt_of_le hi hwp)
  · exact Nat.div_mul_le_self i p
  · refine lt_min ?_ hi
    have h1 := Nat.div_add_mod i p
    have h2 : i % p < p := Nat.mod_lt _ hppos
    have h3 : (i / p + 1) * p = p * (i / p) + p := by ring
    omega
  · rintro k2 ⟨hk2w, hfrom, hto⟩
    exact (Nat.div_eq_of_lt_le hfrom
      (Nat.lt_of_lt_of_le hto (min_le_left _ _))).symm

/-- Witness for C5: with 5 drawables and 3 workers, index 4 is covered by
exactly one worker. -/
theorem workerPartitionExactCover_witness :
    1 ≤ 3 ∧ 4 < 5 ∧
    ∃! k, k < 3 ∧ fromIndex k 5 3 ≤ 4 ∧ 4 < toIndex k 5 3 :=
  ⟨by decide, by decide, workerPartitionExactCover 5 3 4 (by decide) (by decide)⟩

/-- Counterexample to claim C6 as stated: with N = 1 drawable and W = 4
workers (which does not divide N), worker 1 — which is not the last worker
3 — receives the empty range [1, 1), so a short (indeed empty) range is not
received only by the last worker. -/
theorem workerPartitionEmptyRange_counterexample :
    ¬(4 ∣ 1) ∧ (1 : Nat) < 4 ∧
    fromIndex 1 1 4 = toIndex 1 1 4 ∧ (1 : Nat) ≠ 4 - 1 := by
  refine ⟨by omega, by decide, by decide, by decide⟩

/-- Claim C6 as amended: every per-worker range produced by the partitioning
stays in bounds (toIndex ≤ N, so the loop guard i < toIndex never reads past
the drawable list), and at most one worker receives a nonempty short range —
the last worker whose range is nonempty; any workers after it receive empty
ranges (so processing stays safe even when N is not evenly divisible by W). -/
theorem workerPartitionInBoundsShortLast (n w k : Nat) (_hw : 1 ≤ w) (_hk : k < w) :
    toIndex k n w ≤ n ∧
    (fromIndex k n w < toIndex k n w →
     toIndex k n w - fromIndex k n w < drawablesPerItem n w →
     ∀ k2, k < k2 → k2 < w → toIndex k2 n w ≤ fromIndex k2 n w) := by
  refine ⟨min_le_right _ _, ?_⟩
  intro hne hshort k2 hk2 hk2w
  simp only [fromIndex, toIndex] at hne hshort ⊢
  set p := drawablesPerItem n w with hp
  have hmono : (k + 1) * p ≤ k2 * p := Nat.mul_le_mul_right p (by omega)
  have hexp : (k + 1) * p = k * p + p := by ring
  rcases Nat.le_total ((k + 1) * p) n with hle | hge
  · rw [min_eq_left hle] at hne hshort
    omega
  · rw [min_eq_right hge] at hne hshort
    have : min ((k2 + 1) * p) n ≤ n := min_le_right _ _
    omega

/-- Witness for the amended C6: with N = 5 and W = 3, worker 2 is within
bounds and the short-range property holds. -/
theorem workerPartitionInBoundsShortLast_witness :
    1 ≤ 3 ∧ 2 < 3 ∧
    (toIndex 2 5 3 ≤ 5 ∧
     (fromIndex 2 5 3 < toIndex 2 5 3 →
      toIndex 2 5 3 - fromIndex 2 5 3 < drawablesPerItem 5 3 →
      ∀ k2, 2 < k2 → k2 < 3 → toIndex k2 5 3 ≤ fromIndex k2 5 3)) :=
  ⟨by decide, by decide, workerPartitionInBoundsShortLast 5 3 2 (by decide) (by decide)⟩

/-- Claim C7: `TestFactory::HasShadow` returns true exactly when the global
draw-shadows toggle is on, the light casts shadows, its importance is not
"not important", its shadow intensity is strictly below 1, the light is
within its configured shadow distance whenever that distance is positive,
and it is not a point light on a backend without cube-shadow support
(OpenGL ES 2). -/
theorem hasShadowIff (drawShadows glES2 : Bool) (l : Light) :
    TestFactory.HasShadow drawShadows glES2 l = true ↔
      (drawShadows = true ∧ l.castShadows = true ∧
       l.lightImportance ≠ LightImportance.LI_NOT_IMPORTANT ∧
       l.shadowIntensity < 1 ∧
       (l.shadowDistance > 0 → l.distance ≤ l.shadowDistance) ∧
       ¬(glES2 = true ∧ l.lightType = LightType.LIGHT_POINT)) := by
  simp only [TestFactory.HasShadow]
  split_ifs with h1 h2 h3
  · simp only [Bool.false_eq_true, false_iff]
    rintro ⟨hd, hc, himp, hsi, -, -⟩
    simp [hd, hc, hsi, beq_iff_eq, himp] at h1
  · simp only [Bool.false_eq_true, false_iff]
    rintro ⟨-, -, -, -, hdist, -⟩
    rcases h2 with ⟨hsd, hgt⟩
    exact absurd (hdist hsd) (not_le.mpr hgt)
  · simp only [Bool.false_eq_true, false_iff]
    rintro ⟨-, -, -, -, -, hpt⟩
    rw [Bool.and_eq_true, beq_iff_eq] at h3
    exact hpt h3
  · simp only [true_iff]
    rw [Bool.not_eq_true, Bool.not_eq_false'] at h1
    rw [Bool.and_eq_true, Bool.and_eq_true, Bool.and_eq_true] at h1
    rcases h1 with ⟨⟨⟨hd, hc⟩, himp⟩, hsi⟩
    rw [Bool.not_eq_true', beq_eq_false_iff_ne] at himp
    rw [decide_eq_true_iff] at hsi
    refine ⟨hd, hc, himp, hsi, ?_, ?_⟩
    · exact fun hsd => le_of_not_lt fun hlt => h2 ⟨hsd, hlt⟩
    · intro hpt
      exact h3 (by rw [Bool.and_eq_true, beq_iff_eq]; exact hpt)

/-- Claim C8: requesting a pipeline state twice with bitwise-equal
descriptions returns the same cached pipeline object, and the second request
leaves the cache unchanged — creation is idempotent on the description used
as cache key. -/
theorem pipelineStateCacheIdempotent (cache : PipelineStateCache)
    (d1 d2 : PipelineStateDesc) (h : d1 = d2) :
    ((Renderer.GetOrCreatePipelineState
        (Renderer.GetOrCreatePipelineState cache d1).2 d2).1 =
      (Renderer.GetOrCreatePipelineState cache d1).1) ∧
    ((Renderer.GetOrCreatePipelineState
        (Renderer.GetOrCreatePipelineState cache d1).2 d2).2 =
      (Renderer.GetOrCreatePipelineState cache d1).2) := by
  subst h
  unfold Renderer.GetOrCreatePipelineState
  rcases hfind : cache.entries.find? (fun e => e.1 == d1) with _ | e
  · rw [hfind]
    simp [List.find?_cons]
  · rw [hfind]
    simp [hfind]

/-- The all-zero pipeline-state description. -/
def descZero : PipelineStateDesc :=
  ⟨0, 0, 0, 0, false, false, 0, false, 0, 0, 0, 0, 0, 0, 0, false, 0, false,
    0, 0, 0, 0⟩

/-- Witness for C8: two requests with the same concrete description on an
empty cache yield the same handle and the same cache. -/
theorem pipelineStateCacheIdempotent_witness :
    descZero = descZero ∧
    (((Renderer.GetOrCreatePipelineState
        (Renderer.GetOrCreatePipelineState ⟨[], 0⟩ descZero).2 descZero).1 =
      (Renderer.GetOrCreatePipelineState ⟨[], 0⟩ descZero).1) ∧
     ((Renderer.GetOrCreatePipelineState
        (Renderer.GetOrCreatePipelineState ⟨[], 0⟩ descZero).2 descZero).2 =
      (Renderer.GetOrCreatePipelineState ⟨[], 0⟩ descZero).2)) :=
  ⟨rfl, pipelineStateCacheIdempotent ⟨[], 0⟩ descZero descZero rfl⟩

/-- A viewport whose scene has an octree of 7 drawables but no camera. -/
def vpNoCamera : Viewport := ⟨some ⟨some ⟨7⟩⟩, none⟩

/-- A viewport whose scene has no Octree component. -/
def vpNoOctree : Viewport := ⟨some ⟨none⟩, some 1⟩

/-- Claim C9, evaluated at the failing inputs: the unguarded
`CustomView::Define` of `part_000` returns true even though the camera is
missing (recording a null camera), and dereferences null (modelled `none`)
when the scene has no octree — while the guarded revision of `part_001`
returns false non-fatally on both inputs, as the claim describes. -/
theorem defineMissingObjects_eval :
    (CustomViewOld.Define CustomViewState.initial none vpNoCamera).map Prod.fst
      = some true ∧
    (CustomView.Define CustomViewState.initial none vpNoCamera).1 = false ∧
    CustomViewOld.Define CustomViewState.initial none vpNoOctree = none ∧
    (CustomView.Define CustomViewState.initial none vpNoOctree).1 = false := by
  decide

/-- Counterexample to claim C10: at (x, y, width, height) = (1, 2, 10, 20)
the first implementation stores the rectangle (1, 2, 11, 22) while the second
stores (1, 2, 10, 20); the two implementations are not equivalent. -/
theorem setScissorRegion_counterexample :
    RmlRenderer.SetScissorRegion 1 2 10 20 ≠
      RmlRenderer.SetScissorRegionV2 1 2 10 20 := by
  decide

/-- Claim C10 as amended: the two `RmlRenderer::SetScissorRegion`
implementations store the same scissor rectangle exactly when x = 0 and
y = 0; otherwise the first stores right = x + width and bottom = y + height
while the second stores right = width and bottom = height. -/
theorem setScissorRegionAgreeIffOrigin (x y width height : Int) :
    RmlRenderer.SetScissorRegion x y width height =
      RmlRenderer.SetScissorRegionV2 x y width height ↔ (x = 0 ∧ y = 0) := by
  simp only [RmlRenderer.SetScissorRegion, RmlRenderer.SetScissorRegionV2,
    IntRect.mk.injEq, eq_self_iff_true, true_and]
  constructor
  · rintro ⟨h1, h2⟩
    omega
  · rintro ⟨rfl, rfl⟩
    omega

end Rbfx
